import Mathlib

/-!
Shallow embedding of the widevine-proxy client (Go) for verification of its
natural-language specification.

Layout:
* byte/string utilities mirroring Go's `[]byte(string)` (UTF-8) conversion;
* `encoding/base64` StdEncoding: the encoder, and a decoder that mirrors the
  Go decoder's partial-output-on-error behaviour (Go's `DecodeString` returns
  the bytes decoded before the corrupt input together with the error; the
  repository discards that error);
* `crypto/md5` and `crypto/sha1`, implemented in full;
* the repository's signer (`generateSignature` / `AESCBCEncrypt`), the
  envelope builders (`buildLicenseMessage`, `buildCKMessage`, `setPolicy`),
  the endpoint resolver (`getCloudLicenseServiceURL`) and the response
  decoding phase of `GetContentKey`;
* a JSON value type with a serializer modelling `encoding/json.Marshal`
  (struct fields in declaration order, map keys sorted, `[]byte` rendered as
  base64, nil slices rendered as `null`) and a fuel-based value reader
  modelling `encoding/json` decoding for the shapes this client consumes.

Machine integers are `Nat` with explicit `% 2 ^ 32` (resp. `% 256`) where Go
overflow semantics matter.  Fallible Go code returns `Option` / `Except`.
-/

/-- Bytes are natural numbers below 256; Go `[]byte` becomes `List Nat`. -/
abbrev GoBytes := List Nat

/-- UTF-8 encoding of one character, as Go produces for `[]byte(string)`. -/
def utf8Bytes (c : Char) : GoBytes :=
  let n := c.toNat
  if n < 128 then [n]
  else if n < 2048 then [192 + n / 64, 128 + n % 64]
  else if n < 65536 then [224 + n / 4096, 128 + n / 64 % 64, 128 + n % 64]
  else [240 + n / 262144, 128 + n / 4096 % 64, 128 + n / 64 % 64, 128 + n % 64]

/-- Go's `[]byte(s)`: the UTF-8 bytes of the string. -/
def strBytes (s : String) : GoBytes :=
  (s.data.map utf8Bytes).flatten

/-- The base64 standard alphabet (RFC 4648), as used by Go's `StdEncoding`. -/
def b64Alphabet : List Char :=
  "ABCDEFGHIJKLMNOPQRSTUVWXYZabcdefghijklmnopqrstuvwxyz0123456789+/".data

/-- Character for a 6-bit group. -/
def b64Char (n : Nat) : Char := b64Alphabet.getD n 'A'

/-- Encoder core: groups of three bytes to four characters, `=`-padded. -/
def base64EncodeAux : GoBytes → List Char
  | [] => []
  | [b0] => [b64Char (b0 / 4), b64Char (b0 % 4 * 16), '=', '=']
  | [b0, b1] => [b64Char (b0 / 4), b64Char (b0 % 4 * 16 + b1 / 16),
      b64Char (b1 % 16 * 4), '=']
  | b0 :: b1 :: b2 :: rest =>
      b64Char (b0 / 4) :: b64Char (b0 % 4 * 16 + b1 / 16) ::
      b64Char (b1 % 16 * 4 + b2 / 64) :: b64Char (b2 % 64) ::
      base64EncodeAux rest

/-- Go's `base64.StdEncoding.EncodeToString`. -/
def base64Encode (bs : GoBytes) : String := String.mk (base64EncodeAux bs)

/-- Value of a base64 alphabet character, `none` for everything else. -/
def b64Val (c : Char) : Option Nat := b64Alphabet.indexOf? c

/-- Decoder core mirroring Go's `base64.StdEncoding.DecodeString`: Go decodes
quantum by quantum and, on corrupt input, returns the bytes already decoded
(including the bytes of a final properly padded quantum that is followed by
trailing garbage) together with a `CorruptInputError`.  The boolean is `true`
exactly when Go reports no error.  (The `\r`/`\n` skipping of the Go decoder
is not modelled; no input considered here contains them.) -/
def base64DecodeGoAux : List Char → GoBytes × Bool
  | [] => ([], true)
  | c0 :: c1 :: c2 :: c3 :: rest =>
      match b64Val c0, b64Val c1 with
      | some a, some b =>
          let byte1 := a * 4 + b / 16
          if c2 = '=' then
            if c3 = '=' then ([byte1], rest.isEmpty)
            else ([], false)
          else
            match b64Val c2 with
            | some c =>
                let byte2 := b % 16 * 16 + c / 4
                if c3 = '=' then ([byte1, byte2], rest.isEmpty)
                else
                  match b64Val c3 with
                  | some d =>
                      let byte3 := c % 4 * 64 + d
                      let tail := base64DecodeGoAux rest
                      (byte1 :: byte2 :: byte3 :: tail.1, tail.2)
                  | none => ([], false)
            | none => ([], false)
      | _, _ => ([], false)
  | _ => ([], false)

/-- Go's `base64.StdEncoding.DecodeString` on a string: partially decoded
bytes plus a success flag (the repository discards the error component). -/
def base64DecodeGo (s : String) : GoBytes × Bool := base64DecodeGoAux s.data

/-- Truncation to a 32-bit word. -/
def m32 (n : Nat) : Nat := n % 4294967296

/-- Left rotation of a 32-bit word by `s` places. -/
def rotl32 (x s : Nat) : Nat := m32 (x * 2 ^ s + x / 2 ^ (32 - s))

/-- Bitwise complement of a 32-bit word. -/
def not32 (x : Nat) : Nat := 4294967295 - x % 4294967296

/-- Little-endian 32-bit word from four bytes. -/
def le32 (b0 b1 b2 b3 : Nat) : Nat := b0 + b1 * 256 + b2 * 65536 + b3 * 16777216

/-- Little-endian bytes of a 32-bit word. -/
def le32Bytes (w : Nat) : GoBytes := [w % 256, w / 256 % 256, w / 65536 % 256, w / 16777216 % 256]

/-- Big-endian bytes of a 32-bit word. -/
def be32Bytes (w : Nat) : GoBytes := [w / 16777216 % 256, w / 65536 % 256, w / 256 % 256, w % 256]

/-- Split a byte list into chunks of a given size. -/
def chunksOf (k : Nat) (fuel : Nat) (bs : GoBytes) : List GoBytes :=
  match fuel with
  | 0 => []
  | fuel + 1 => if bs.length = 0 then [] else bs.take k :: chunksOf k fuel (bs.drop k)

/-- Merkle–Damgård padding shared by MD5 and SHA-1: a `0x80` byte, zeros to
56 mod 64, then the 8-byte bit length (little-endian for MD5, big-endian for
SHA-1). -/
def mdPad (littleEndian : Bool) (msg : GoBytes) : GoBytes :=
  let bitLen := msg.length * 8
  let zeros := (55 + 64 - msg.length % 64) % 64
  let lenBytes := [bitLen % 256, bitLen / 256 % 256, bitLen / 65536 % 256,
    bitLen / 16777216 % 256, bitLen / 4294967296 % 256, bitLen / 1099511627776 % 256,
    bitLen / 281474976710656 % 256, bitLen / 72057594037927936 % 256]
  msg ++ 128 :: List.replicate zeros 0 ++ (if littleEndian then lenBytes else lenBytes.reverse)

/-- The sixteen little-endian message words of one 64-byte MD5 chunk. -/
def md5Words (chunk : GoBytes) : List Nat :=
  (chunksOf 4 16 chunk).map fun g => le32 (g.getD 0 0) (g.getD 1 0) (g.getD 2 0) (g.getD 3 0)

/-- MD5 per-round sine-derived constants (RFC 1321). -/
def md5K : List Nat :=
  [0xd76aa478, 0xe8c7b756, 0x242070db, 0xc1bdceee,
   0xf57c0faf, 0x4787c62a, 0xa8304613, 0xfd469501,
   0x698098d8, 0x8b44f7af, 0xffff5bb1, 0x895cd7be,
   0x6b901122, 0xfd987193, 0xa679438e, 0x49b40821,
   0xf61e2562, 0xc040b340, 0x265e5a51, 0xe9b6c7aa,
   0xd62f105d, 0x02441453, 0xd8a1e681, 0xe7d3fbc8,
   0x21e1cde6, 0xc33707d6, 0xf4d50d87, 0x455a14ed,
   0xa9e3e905, 0xfcefa3f8, 0x676f02d9, 0x8d2a4c8a,
   0xfffa3942, 0x8771f681, 0x6d9d6122, 0xfde5380c,
   0xa4beea44, 0x4bdecfa9, 0xf6bb4b60, 0xbebfbc70,
   0x289b7ec6, 0xeaa127fa, 0xd4ef3085, 0x04881d05,
   0xd9d4d039, 0xe6db99e5, 0x1fa27cf8, 0xc4ac5665,
   0xf4292244, 0x432aff97, 0xab9423a7, 0xfc93a039,
   0x655b59c3, 0x8f0ccc92, 0xffeff47d, 0x85845dd1,
   0x6fa87e4f, 0xfe2ce6e0, 0xa3014314, 0x4e0811a1,
   0xf7537e82, 0xbd3af235, 0x2ad7d2bb, 0xeb86d391]

/-- MD5 per-round left-rotation amounts (RFC 1321). -/
def md5S : List Nat :=
  [7, 12, 17, 22, 7, 12, 17, 22, 7, 12, 17, 22, 7, 12, 17, 22,
   5, 9, 14, 20, 5, 9, 14, 20, 5, 9, 14, 20, 5, 9, 14, 20,
   4, 11, 16, 23, 4, 11, 16, 23, 4, 11, 16, 23, 4, 11, 16, 23,
   6, 10, 15, 21, 6, 10, 15, 21, 6, 10, 15, 21, 6, 10, 15, 21]

/-- Running MD5 state: the four 32-bit registers. -/
structure MD5State where
  a : Nat
  b : Nat
  c : Nat
  d : Nat

/-- One MD5 round `i` (0-based) on state `s` with message words `w`. -/
def md5Round (w : List Nat) (s : MD5State) (i : Nat) : MD5State :=
  let fg : Nat × Nat :=
    if i < 16 then (s.b &&& s.c ||| not32 s.b &&& s.d, i)
    else if i < 32 then (s.d &&& s.b ||| not32 s.d &&& s.c, (5 * i + 1) % 16)
    else if i < 48 then (s.b ^^^ s.c ^^^ s.d, (3 * i + 5) % 16)
    else (s.c ^^^ (s.b ||| not32 s.d), 7 * i % 16)
  let f := m32 (fg.1 + s.a + md5K.getD i 0 + w.getD fg.2 0)
  { a := s.d, b := m32 (s.b + rotl32 f (md5S.getD i 0)), c := s.b, d := s.c }

/-- One 64-byte MD5 chunk: 64 rounds then the feed-forward addition. -/
def md5Chunk (s : MD5State) (chunk : GoBytes) : MD5State :=
  let w := md5Words chunk
  let e := (List.range 64).foldl (md5Round w) s
  { a := m32 (s.a + e.a), b := m32 (s.b + e.b), c := m32 (s.c + e.c), d := m32 (s.d + e.d) }

/-- Final MD5 state over a whole message (model of Go's `crypto/md5`). -/
def md5Core (msg : GoBytes) : MD5State :=
  let padded := mdPad true msg
  (chunksOf 64 (padded.length / 64 + 1) padded).foldl md5Chunk
    { a := 0x67452301, b := 0xefcdab89, c := 0x98badcfe, d := 0x10325476 }

/-- Go's `md5.Sum`: the 16-byte MD5 digest, registers serialized little-endian. -/
def md5 (msg : GoBytes) : GoBytes :=
  le32Bytes (md5Core msg).a ++ le32Bytes (md5Core msg).b ++
    le32Bytes (md5Core msg).c ++ le32Bytes (md5Core msg).d

/-- Running SHA-1 state: the five 32-bit registers. -/
structure SHA1State where
  a : Nat
  b : Nat
  c : Nat
  d : Nat
  e : Nat

/-- The 80 SHA-1 message-schedule words of one chunk (big-endian words, then
`W[t] = rotl1 (W[t-3] xor W[t-8] xor W[t-14] xor W[t-16])`). -/
def sha1Schedule (chunk : GoBytes) : List Nat :=
  let w16 := (chunksOf 4 16 chunk).map fun g =>
    (g.getD 0 0) * 16777216 + (g.getD 1 0) * 65536 + (g.getD 2 0) * 256 + g.getD 3 0
  (List.range 64).foldl
    (fun w _ =>
      let t := w.length
      w ++ [rotl32 (w.getD (t - 3) 0 ^^^ w.getD (t - 8) 0 ^^^ w.getD (t - 14) 0 ^^^
        w.getD (t - 16) 0) 1])
    w16

/-- One SHA-1 round `i` (0-based) on state `s` with schedule `w`. -/
def sha1Round (w : List Nat) (s : SHA1State) (i : Nat) : SHA1State :=
  let fk : Nat × Nat :=
    if i < 20 then (s.b &&& s.c ||| not32 s.b &&& s.d, 0x5a827999)
    else if i < 40 then (s.b ^^^ s.c ^^^ s.d, 0x6ed9eba1)
    else if i < 60 then (s.b &&& s.c ||| s.b &&& s.d ||| s.c &&& s.d, 0x8f1bbcdc)
    else (s.b ^^^ s.c ^^^ s.d, 0xca62c1d6)
  let t := m32 (rotl32 s.a 5 + fk.1 + s.e + fk.2 + w.getD i 0)
  { a := t, b := s.a, c := rotl32 s.b 30, d := s.c, e := s.d }

/-- One 64-byte SHA-1 chunk: 80 rounds then the feed-forward addition. -/
def sha1Chunk (s : SHA1State) (chunk : GoBytes) : SHA1State :=
  let w := sha1Schedule chunk
  let f := (List.range 80).foldl (sha1Round w) s
  { a := m32 (s.a + f.a), b := m32 (s.b + f.b), c := m32 (s.c + f.c),
    d := m32 (s.d + f.d), e := m32 (s.e + f.e) }

/-- Final SHA-1 state over a whole message (model of Go's `crypto/sha1`). -/
def sha1Core (msg : GoBytes) : SHA1State :=
  let padded := mdPad false msg
  (chunksOf 64 (padded.length / 64 + 1) padded).foldl sha1Chunk
    { a := 0x67452301, b := 0xefcdab89, c := 0x98badcfe, d := 0x10325476, e := 0xc3d2e1f0 }

/-- Go's `sha1.Sum`: the 20-byte SHA-1 digest, registers serialized big-endian. -/
def sha1 (msg : GoBytes) : GoBytes :=
  be32Bytes (sha1Core msg).a ++ be32Bytes (sha1Core msg).b ++ be32Bytes (sha1Core msg).c ++
    be32Bytes (sha1Core msg).d ++ be32Bytes (sha1Core msg).e

/-- Error raised when the signer's cipher initialization rejects the
configured key or IV length (the spec's `CryptoError` taxonomy entry). -/
inductive CryptoError where
  | invalidKeySize (n : Nat)
  | invalidIVSize (n : Nat)
deriving DecidableEq

/-- PKCS#7 padding of a byte string to 16-byte blocks, the standard padding
scheme the spec prescribes for the CBC plaintext. -/
def pkcs7Pad (bs : GoBytes) : GoBytes :=
  let r := 16 - bs.length % 16
  bs ++ List.replicate r r

/-- Stand-in for the AES block permutation: a fixed deterministic map from a
key and a 16-byte block to a 16-byte block.  The spec treats the block cipher
as an external standard primitive ("a block cipher in cipher-block-chaining
mode"); no claim under verification depends on the block permutation's
values, only on the CBC structure, the length checks and determinism, so the
permutation itself is modelled by a fixed concrete function. -/
def blockCipherModel (key blk : GoBytes) : GoBytes :=
  (List.range 16).map fun i =>
    (blk.getD i 0 + 2 * key.getD (i % key.length) 0 + 7 * i + 1) % 256

/-- CBC chaining: each plaintext block is XORed with the previous ciphertext
block (initially the IV) and then sent through the block permutation. -/
def cbcChain (key : GoBytes) (prev : GoBytes) : List GoBytes → GoBytes
  | [] => []
  | blk :: rest =>
      let c := blockCipherModel key (List.zipWith (fun x y => x ^^^ y) blk prev)
      c ++ cbcChain key c rest

/-- Modelled from the spec: `AESCBCEncrypt`, the crypto helper the signer
calls, is code of this repository that is not under `src/` (only its caller
`generateSignature` is).  Per the spec it encrypts the digest under the
configured key and IV with a block cipher in CBC mode, padding the plaintext
per a standard padding scheme to the 16-byte block size, and fails with a
`CryptoError` when cipher initialization rejects the key or IV length (AES
accepts keys of 16, 24 or 32 bytes and an IV of the 16-byte block size). -/
def AESCBCEncrypt (key iv plaintext : GoBytes) : Except CryptoError GoBytes :=
  if key.length = 16 ∨ key.length = 24 ∨ key.length = 32 then
    if iv.length = 16 then
      .ok (cbcChain key iv (chunksOf 16 (plaintext.length / 16 + 2) (pkcs7Pad plaintext)))
    else .error (.invalidIVSize iv.length)
  else .error (.invalidKeySize key.length)

/-- A content-key specification, mirroring the Go `ContentKeySpec` struct.
All four fields carry the JSON tags `key_id`, `key`, `iv`, `track_type`,
none of them marked `omitempty`. -/
structure ContentKeySpec where
  KeyID : String
  Key : String
  IV : String
  TrackType : String
deriving DecidableEq

/-- The pluggable key-governance capability, mirroring the Go `KeyGoverner`
interface (only `GenerateContentKey` is called by the code under `src/`). -/
structure KeyGoverner where
  GenerateContentKeyID : GoBytes → GoBytes
  GenerateContentKey : GoBytes → GoBytes
  GenerateContentIV : GoBytes → GoBytes
  GenerateContentKeySpec : GoBytes → List (String × String) → Option (List ContentKeySpec)

/-- The proxy configuration, mirroring the Go `Proxy` struct (the HTTP
client and logger fields carry no data relevant to the claims). -/
structure Proxy where
  PartnerRootKey : GoBytes
  PartnerRootIV : GoBytes
  Provider : String
  ContentKeyGenerator : KeyGoverner

/-- The signer: SHA-1 digest of the payload, then `AESCBCEncrypt` under the
configured partner root key and IV (mirrors `generateSignature` in the
source; the digest and CBC structure are per the source and the spec). -/
def generateSignature (wp : Proxy) (payload : GoBytes) : Except CryptoError GoBytes :=
  AESCBCEncrypt wp.PartnerRootKey wp.PartnerRootIV (sha1 payload)

/-- JSON values (numbers restricted to integers: every number this client
produces or consumes in the claims under verification is integral). -/
inductive Json where
  | null
  | bool (b : Bool)
  | num (n : Int)
  | str (s : String)
  | arr (elems : List Json)
  | obj (members : List (String × Json))

/-- Left-brace character, written via its code point. -/
def lbrace : Char := Char.ofNat 123

/-- Right-brace character, written via its code point. -/
def rbrace : Char := Char.ofNat 125

/-- JSON string quoting as Go's `encoding/json` produces it: `"` and `\`
escaped, control characters as `\n`, `\r`, `\t` or `\u00xx`, and the three
HTML-relevant characters escaped as backslash-u003c, backslash-u003e and
backslash-u0026 (Go's default HTML escaping). -/
def jsonQuoteChar (c : Char) : List Char :=
  if c = '"' then ['\\', '"']
  else if c = '\\' then ['\\', '\\']
  else if c = '\n' then ['\\', 'n']
  else if c = '\r' then ['\\', 'r']
  else if c = '\t' then ['\\', 't']
  else if c.toNat < 32 then
    ['\\', 'u', '0', '0', Nat.digitChar (c.toNat / 16), Nat.digitChar (c.toNat % 16)]
  else if c = '<' then ['\\', 'u', '0', '0', '3', 'c']
  else if c = '>' then ['\\', 'u', '0', '0', '3', 'e']
  else if c = '&' then ['\\', 'u', '0', '0', '2', '6']
  else [c]

/-- Quoted JSON form of a string. -/
def jsonQuote (s : String) : String :=
  String.mk ('"' :: (s.data.map jsonQuoteChar).flatten ++ ['"'])

/-- Lexicographic order on code-point lists. -/
def natListLt : List Nat → List Nat → Bool
  | [], [] => false
  | [], _ :: _ => true
  | _ :: _, [] => false
  | a :: as, b :: bs => if a < b then true else if a = b then natListLt as bs else false

/-- Byte-wise string order, as Go's sorted map-key serialization uses
(identical to code-point order on the ASCII keys that occur here). -/
def strLtB (a b : String) : Bool :=
  natListLt (a.data.map Char.toNat) (b.data.map Char.toNat)

/-- Insert a keyed member into a key-sorted member list (Go's `Marshal`
serializes `map[string]T` with keys in sorted order). -/
def insertByKey (x : String × Json) : List (String × Json) → List (String × Json)
  | [] => [x]
  | y :: ys => if strLtB x.1 y.1 then x :: y :: ys else y :: insertByKey x ys

/-- Sort members by key, modelling Go's sorted-key map serialization. -/
def sortByKey (l : List (String × Json)) : List (String × Json) :=
  l.foldr insertByKey []

/-- Serializer for `Json`, fuel-indexed on nesting depth (structural on the
fuel; every value this client serializes has depth at most four, so any fuel
of at least five is exact).  Object members are serialized in list order;
callers that model Go maps sort the members first. -/
def jsonSerialize : Nat → Json → String
  | 0, _ => ""
  | _ + 1, .null => "null"
  | _ + 1, .bool true => "true"
  | _ + 1, .bool false => "false"
  | _ + 1, .num n => toString n
  | _ + 1, .str s => jsonQuote s
  | fuel + 1, .arr elems =>
      "[" ++ String.intercalate "," (elems.map (jsonSerialize fuel)) ++ "]"
  | fuel + 1, .obj members =>
      String.mk [lbrace] ++
        String.intercalate ","
          (members.map fun m => jsonQuote m.1 ++ ":" ++ jsonSerialize fuel m.2) ++
        String.mk [rbrace]

/-- Go's `json.Marshal` on a `map[string]interface{}` whose values are
modelled as `Json`: members sorted by key, then serialized. -/
def marshalStringMap (m : List (String × Json)) : String :=
  jsonSerialize 8 (Json.obj (sortByKey m))

/-- Whitespace per the JSON grammar. -/
def jsonIsWs (c : Char) : Bool := c = ' ' ∨ c = '\n' ∨ c = '\t' ∨ c = '\r'

/-- Drop leading JSON whitespace. -/
def jsonSkipWs (cs : List Char) : List Char := cs.dropWhile jsonIsWs

/-- Read the remainder of a JSON string literal (after the opening quote),
returning the unescaped characters and the rest of the input.  The simple
escapes of `encoding/json` are handled; a `\u` escape or a bad escape makes
the read fail (no input under verification contains a `\u` escape). -/
def jsonReadString : Nat → List Char → Option (List Char × List Char)
  | 0, _ => none
  | _ + 1, [] => none
  | fuel + 1, c :: cs =>
      if c = '"' then some ([], cs)
      else if c = '\\' then
        match cs with
        | [] => none
        | e :: cs2 =>
            let dec : Option Char :=
              if e = '"' then some '"'
              else if e = '\\' then some '\\'
              else if e = '/' then some '/'
              else if e = 'n' then some '\n'
              else if e = 't' then some '\t'
              else if e = 'r' then some '\r'
              else if e = 'b' then some (Char.ofNat 8)
              else if e = 'f' then some (Char.ofNat 12)
              else none
            match dec with
            | none => none
            | some d =>
                match jsonReadString fuel cs2 with
                | none => none
                | some (body, rest) => some (d :: body, rest)
      else
        match jsonReadString fuel cs with
        | none => none
        | some (body, rest) => some (c :: body, rest)

/-- Read a run of decimal digits as a `Nat` (with at least one digit). -/
def jsonReadDigits (cs : List Char) : Option (Nat × List Char) :=
  let digits := cs.takeWhile Char.isDigit
  if digits.isEmpty then none
  else some (digits.foldl (fun acc c => acc * 10 + (c.toNat - 48)) 0, cs.drop digits.length)

mutual

/-- Fuel-indexed JSON value reader, modelling the value grammar that Go's
`encoding/json` accepts for the inputs this client decodes: literals,
integral numbers, strings, arrays and objects.  Returns the value and the
unconsumed input.  Fuel one more than the input length is always enough,
since every recursive call follows the consumption of at least one
character. -/
def jsonReadValue : Nat → List Char → Option (Json × List Char)
  | 0, _ => none
  | fuel + 1, cs =>
      match jsonSkipWs cs with
      | 'n' :: 'u' :: 'l' :: 'l' :: rest => some (.null, rest)
      | 't' :: 'r' :: 'u' :: 'e' :: rest => some (.bool true, rest)
      | 'f' :: 'a' :: 'l' :: 's' :: 'e' :: rest => some (.bool false, rest)
      | '"' :: rest =>
          match jsonReadString (rest.length + 1) rest with
          | none => none
          | some (body, rest2) => some (.str (String.mk body), rest2)
      | '-' :: rest =>
          match jsonReadDigits rest with
          | none => none
          | some (n, rest2) => some (.num (-(n : Int)), rest2)
      | '[' :: rest =>
          match jsonSkipWs rest with
          | ']' :: rest2 => some (.arr [], rest2)
          | _ => jsonReadElems fuel rest []
      | c :: rest =>
          if c = lbrace then
            match jsonSkipWs rest with
            | c2 :: rest2 =>
                if c2 = rbrace then some (.obj [], rest2)
                else jsonReadMembers fuel (c2 :: rest2) []
            | [] => none
          else if c.isDigit then
            match jsonReadDigits (c :: rest) with
            | none => none
            | some (n, rest2) => some (.num (n : Int), rest2)
          else none
      | [] => none

/-- Array elements: a value, then `,` and more elements or `]`. -/
def jsonReadElems : Nat → List Char → List Json → Option (Json × List Char)
  | 0, _, _ => none
  | fuel + 1, cs, acc =>
      match jsonReadValue fuel cs with
      | none => none
      | some (v, rest) =>
          match jsonSkipWs rest with
          | ',' :: rest2 => jsonReadElems fuel rest2 (acc ++ [v])
          | ']' :: rest2 => some (.arr (acc ++ [v]), rest2)
          | _ => none

/-- Object members: a quoted key, `:`, a value, then `,` or the closing
brace. -/
def jsonReadMembers : Nat → List Char → List (String × Json) →
    Option (Json × List Char)
  | 0, _, _ => none
  | fuel + 1, cs, acc =>
      match jsonSkipWs cs with
      | '"' :: rest =>
          match jsonReadString (rest.length + 1) rest with
          | none => none
          | some (keyChars, rest2) =>
              let key := String.mk keyChars
              match jsonSkipWs rest2 with
              | ':' :: rest3 =>
                  match jsonReadValue fuel rest3 with
                  | none => none
                  | some (v, rest4) =>
                      match jsonSkipWs rest4 with
                      | ',' :: rest5 => jsonReadMembers fuel rest5 (acc ++ [(key, v)])
                      | c :: rest5 =>
                          if c = rbrace then some (.obj (acc ++ [(key, v)]), rest5)
                          else none
                      | [] => none
              | _ => none
      | _ => none
end

/-- Parse a whole string as one JSON value, ignoring what follows the value
(Go's `json.Decoder.Decode` reads a single value and leaves the rest of the
body unread). -/
def jsonDecodeValue (s : String) : Option (Json × List Char) :=
  jsonReadValue (s.length + 1) s.data

/-- Parse a whole byte string as one JSON value with only whitespace after
it (Go's `json.Unmarshal` rejects trailing data).  Bytes are interpreted as
Unicode scalars, which coincides with Go for the ASCII inputs considered
here. -/
def jsonUnmarshalBytes (bs : GoBytes) : Option Json :=
  match jsonReadValue (bs.length + 1) (bs.map Char.ofNat) with
  | none => none
  | some (v, rest) => if (jsonSkipWs rest).isEmpty then some v else none

/-- Go's `Decode` into a `map[string]string`: the JSON value must be `null`
(which leaves the freshly made empty map untouched) or an object whose
values are all strings.  The resulting association list keeps the members in
order; a later duplicate key overwrites an earlier one in a Go map, so
lookups below take the last binding. -/
def decodeStringMap : Json → Option (List (String × String))
  | .null => some []
  | .obj members =>
      members.foldl
        (fun acc m =>
          match acc, m.2 with
          | some l, .str s => some (l ++ [(m.1, s)])
          | _, _ => none)
        (some [])
  | _ => none

/-- Last binding of a key in an association list (Go map semantics under
duplicate JSON keys). -/
def lookupLast (key : String) (l : List (String × String)) : Option String :=
  l.foldl (fun acc m => if m.1 = key then some m.2 else acc) none

/-- A `drm` entry of the decoded content-key response (the Go field `Type`
is renamed `Type'` because `Type` is a Lean keyword). -/
structure DrmEntry where
  Type' : String
  SystemID : String
deriving DecidableEq

/-- A `pssh` entry of a decoded content-key response track. -/
structure PsshEntry where
  DRMType : String
  Data : String
deriving DecidableEq

/-- A `tracks` entry of the decoded content-key response (the Go field
`Type` is renamed `Type'`). -/
structure TrackEntry where
  Type' : String
  KeyID : String
  Key : String
  PSSH : List PsshEntry
deriving DecidableEq

/-- The decoded content-key response, mirroring the Go `ContentKeyResponse`
struct. -/
structure ContentKeyResponse where
  Status : String
  DRM : List DrmEntry
  Tracks : List TrackEntry
  AlreadyUsed : Bool
deriving DecidableEq

/-- Decode a JSON value into a string field of a struct: absent or `null`
leaves the zero value, a string sets it, anything else is an unmarshal type
error. -/
def fieldString : Option Json → Option String
  | none => some ""
  | some .null => some ""
  | some (.str s) => some s
  | some _ => none

/-- First binding of a key among JSON object members; `encoding/json` uses
the last match for duplicate keys, but no input considered here has
duplicates, and the structured fields below use this uniform lookup. -/
def jsonField (key : String) (members : List (String × Json)) : Option Json :=
  members.foldl (fun acc m => if m.1 = key then some m.2 else acc) none

/-- Decode one `drm` object. -/
def decodeDrmEntry : Json → Option DrmEntry
  | .obj members =>
      match fieldString (jsonField "type" members),
          fieldString (jsonField "system_id" members) with
      | some t, some s => some ⟨t, s⟩
      | _, _ => none
  | .null => some ⟨"", ""⟩
  | _ => none

/-- Decode one `pssh` object. -/
def decodePsshEntry : Json → Option PsshEntry
  | .obj members =>
      match fieldString (jsonField "drm_type" members),
          fieldString (jsonField "data" members) with
      | some t, some d => some ⟨t, d⟩
      | _, _ => none
  | .null => some ⟨"", ""⟩
  | _ => none

/-- Decode a JSON value into a slice field: absent or `null` is the nil
slice, an array decodes elementwise. -/
def fieldList {α : Type} (dec : Json → Option α) : Option Json → Option (List α)
  | none => some []
  | some .null => some []
  | some (.arr elems) =>
      elems.foldl
        (fun acc e =>
          match acc, dec e with
          | some l, some v => some (l ++ [v])
          | _, _ => none)
        (some [])
  | some _ => none

/-- Decode one `tracks` object. -/
def decodeTrackEntry : Json → Option TrackEntry
  | .obj members =>
      match fieldString (jsonField "type" members),
          fieldString (jsonField "key_id" members),
          fieldString (jsonField "key" members),
          fieldList decodePsshEntry (jsonField "pssh" members) with
      | some t, some kid, some k, some p => some ⟨t, kid, k, p⟩
      | _, _, _, _ => none
  | .null => some ⟨"", "", "", []⟩
  | _ => none

/-- Decode a JSON value into a `Bool` field. -/
def fieldBool : Option Json → Option Bool
  | none => some false
  | some .null => some false
  | some (.bool b) => some b
  | some _ => none

/-- Go's `json.Unmarshal` of a byte string into `*ContentKeyResponse`:
parse, then decode the object fields (`null` leaves the zero value;
unknown fields are ignored; a type mismatch is an error). -/
def unmarshalContentKeyResponse (bs : GoBytes) : Option ContentKeyResponse :=
  match jsonUnmarshalBytes bs with
  | none => none
  | some .null => some ⟨"", [], [], false⟩
  | some (.obj members) =>
      match fieldString (jsonField "status" members),
          fieldList decodeDrmEntry (jsonField "drm" members),
          fieldList decodeTrackEntry (jsonField "tracks" members),
          fieldBool (jsonField "already_used" members) with
      | some st, some d, some tr, some au => some ⟨st, d, tr, au⟩
      | _, _, _, _ => none
  | some _ => none

/-- The three caller-visible failure sites of `GetContentKey`'s response
processing: the transport-body JSON decode error (Go: the error returned by
`json.NewDecoder(...).Decode(&respJSON)`), the missing-`response`-field
error (Go: `fmt.Errorf("[GET] Content Key Response is Empty")`), and the
inner unmarshal error (Go: the error returned by `json.Unmarshal(dec,
&output)`).  The base64 decode of the `response` field has no constructor
here because the source discards its error. -/
inductive CKError where
  | transportJson
  | emptyResponse
  | innerJson
deriving DecidableEq, BEq

/-- Response-processing phase of `GetContentKey`, mirrored from the source:
decode the body into a `map[string]string`, extract `response` (failing with
the distinct empty-response error when absent), base64-decode its value with
the error discarded (`dec, _ := base64.StdEncoding.DecodeString(resp)`), and
unmarshal the resulting bytes into `ContentKeyResponse`. -/
def GetContentKeyDecode (body : String) : Except CKError ContentKeyResponse :=
  match jsonDecodeValue body with
  | none => .error .transportJson
  | some (j, _) =>
      match decodeStringMap j with
      | none => .error .transportJson
      | some respJSON =>
          match lookupLast "response" respJSON with
          | none => .error .emptyResponse
          | some resp =>
              let dec := (base64DecodeGo resp).1
              match unmarshalContentKeyResponse dec with
              | none => .error .innerJson
              | some output => .ok output

/-- The caller-supplied content-key policy, mirroring the Go `Policy`
struct. -/
structure Policy where
  ContentID : String
  Tracks : List String
  DRMTypes : List String
  Policy : String

/-- The `tracks` value `setPolicy` builds: the Go code declares
`var tracks []interface{}` and appends one `map[string]string{"type": track}`
per input track, so an empty input leaves the slice nil, and a nil slice is
serialized by `encoding/json` as `null` rather than `[]`. -/
def tracksValue : List String → Json
  | [] => .null
  | ts => .arr (ts.map fun track => .obj [("type", .str track)])

/-- A `[]string` value inside a `map[string]interface{}`: Go serializes a
nil slice as `null` and a non-empty one elementwise (the `Policy` model
cannot distinguish a non-nil empty Go slice from a nil one; no claim
depends on that distinction). -/
def stringSliceValue : List String → Json
  | [] => .null
  | ds => .arr (ds.map Json.str)

/-- Mirrors `setPolicy`: the policy object as the Go `map[string]interface{}`
with the base64 content id, the tracks list, the DRM types verbatim and the
policy profile name verbatim.  The receiver is unused by the source method
and kept for fidelity. -/
def setPolicy (_wp : Proxy) (contentID : String) (policy : Policy) :
    List (String × Json) :=
  let enc := base64Encode (strBytes contentID)
  [("content_id", .str enc),
   ("tracks", tracksValue policy.Tracks),
   ("drm_types", stringSliceValue policy.DRMTypes),
   ("policy", .str policy.Policy)]

/-- The outer signed envelope `{request, signature, signer}` both builders
return (a Go `map[string]interface{}`; `request` and `signer` are strings
and `signature` is the raw signature bytes). -/
structure PostBody where
  request : String
  signature : GoBytes
  signer : String
deriving DecidableEq

/-- Go's `json.Marshal` of the envelope map: keys in sorted order
(`request`, `signature`, `signer`) and the `[]byte` signature rendered as a
base64 string, per `encoding/json`'s `[]byte` rule. -/
def marshalPostBody (b : PostBody) : String :=
  String.mk [lbrace] ++
    "\"request\":" ++ jsonQuote b.request ++
    ",\"signature\":" ++ jsonQuote (base64Encode b.signature) ++
    ",\"signer\":" ++ jsonQuote b.signer ++
    String.mk [rbrace]

/-- Mirrors `buildCKMessage`: marshal the policy map, base64-encode it,
sign the marshaled bytes; on a signer error the source logs nothing and
returns `nil` (the error is not propagated), modelled as `none`. -/
def buildCKMessage (wp : Proxy) (policy : List (String × Json)) : Option PostBody :=
  let jsonPayload := marshalStringMap policy
  let b64payload := base64Encode (strBytes jsonPayload)
  match generateSignature wp (strBytes jsonPayload) with
  | .error _ => none
  | .ok sign => some ⟨b64payload, sign, wp.Provider⟩

/-- Request-building phase of `GetContentKey`, mirrored from the source:
`payload, err := json.Marshal(wp.buildCKMessage(p))`.  Go's `json.Marshal`
of a nil `map[string]interface{}` succeeds and produces the four bytes
`null`, so a `none` from `buildCKMessage` still yields a POST body. -/
def GetContentKeyRequestBody (wp : Proxy) (contentID : String) (policy : Policy) :
    String :=
  let p := setPolicy wp contentID policy
  match buildCKMessage wp p with
  | none => "null"
  | some b => marshalPostBody b

/-- The whole `GetContentKey` exchange with the network abstracted as a
total function from the POST body to the response body: build the request,
send it, decode the reply.  (Transport-level failures of `http.Client.Do`
are outside the model; every error the model returns is one the source
returns from the corresponding code site.) -/
def GetContentKey (wp : Proxy) (contentID : String) (policy : Policy)
    (server : String → String) : Except CKError ContentKeyResponse :=
  GetContentKeyDecode (server (GetContentKeyRequestBody wp contentID policy))

/-- The inner license request message, mirroring the Go `LicenseMessage`
struct (field order is the Go declaration order; JSON tags `payload`,
`content_id`, `provider`, `allowed_track_types`, `content_key_specs`). -/
structure LicenseMessage where
  Payload : String
  ContentID : String
  Provider : String
  AllowedTrackTypes : String
  ContentKeySpecs : List ContentKeySpec
deriving DecidableEq

/-- Go's `json.Marshal` of one `ContentKeySpec`: all four fields, in
declaration order, none omitted (no `omitempty` in the struct tags). -/
def marshalContentKeySpec (s : ContentKeySpec) : String :=
  String.mk [lbrace] ++
    "\"key_id\":" ++ jsonQuote s.KeyID ++
    ",\"key\":" ++ jsonQuote s.Key ++
    ",\"iv\":" ++ jsonQuote s.IV ++
    ",\"track_type\":" ++ jsonQuote s.TrackType ++
    String.mk [rbrace]

/-- Go's `json.Marshal` of a `*LicenseMessage`: struct fields in declaration
order under their JSON tags. -/
def marshalLicenseMessage (m : LicenseMessage) : String :=
  String.mk [lbrace] ++
    "\"payload\":" ++ jsonQuote m.Payload ++
    ",\"content_id\":" ++ jsonQuote m.ContentID ++
    ",\"provider\":" ++ jsonQuote m.Provider ++
    ",\"allowed_track_types\":" ++ jsonQuote m.AllowedTrackTypes ++
    ",\"content_key_specs\":[" ++
    String.intercalate "," (m.ContentKeySpecs.map marshalContentKeySpec) ++ "]" ++
    String.mk [rbrace]

/-- The inner message `buildLicenseMessage` constructs: the caller-supplied
challenge as payload, base64 content id, the configured provider, the fixed
track-types marker, and one content-key spec holding base64 of the derived
key and base64 of its MD5 digest (the `IV` and `TrackType` fields are left
at their zero value, the empty string). -/
def licenseInnerMessage (wp : Proxy) (contentID : String) (body : String) :
    LicenseMessage :=
  let enc := base64Encode (strBytes contentID)
  let contentKey := wp.ContentKeyGenerator.GenerateContentKey (strBytes contentID)
  let contentKeyID := md5 contentKey
  let spec : ContentKeySpec :=
    { KeyID := base64Encode contentKeyID, Key := base64Encode contentKey,
      IV := "", TrackType := "" }
  { Payload := body,
    ContentID := enc,
    Provider := wp.Provider,
    AllowedTrackTypes := "SD_UHD1",
    ContentKeySpecs := [spec] }

/-- Mirrors `buildLicenseMessage`: construct the inner message, marshal it,
base64-encode the marshaled bytes for `request`, sign the same marshaled
bytes, and assemble the envelope; a signer error is propagated. -/
def buildLicenseMessage (wp : Proxy) (contentID : String) (body : String) :
    Except CryptoError PostBody :=
  let message := licenseInnerMessage wp contentID body
  let jsonMessage := marshalLicenseMessage message
  match generateSignature wp (strBytes jsonMessage) with
  | .error e => .error e
  | .ok sign => .ok ⟨base64Encode (strBytes jsonMessage), sign, wp.Provider⟩

/-- ASCII lower-casing of one character (model of what `strings.ToLower`
does on the ASCII purpose strings this client passes). -/
def lowerChar (c : Char) : Char :=
  if 65 <= c.toNat ∧ c.toNat <= 90 then Char.ofNat (c.toNat + 32) else c

/-- Model of Go's `strings.ToLower` (exact on ASCII input; every purpose
string in the source is ASCII). -/
def goToLower (s : String) : String := String.mk (s.data.map lowerChar)

/-- Whether `p` is a prefix of `s`, character-wise (model of
`strings.HasPrefix`, used only to state the staging-host property). -/
def strHasPrefix (p s : String) : Bool :=
  (p.data.map Char.toNat).isPrefixOf (s.data.map Char.toNat)

/-- Split on the slash character, accumulator-based. -/
def splitSlashAux : List Char → List Char → List String
  | [], acc => [String.mk acc.reverse]
  | c :: cs, acc =>
      if c = '/' then String.mk acc.reverse :: splitSlashAux cs []
      else splitSlashAux cs (c :: acc)

/-- The slash-separated segments of a URL (used to state which literal is
the final path segment). -/
def splitSlash (s : String) : List String := splitSlashAux s.data []

/-- Widevine Modular UAT license endpoint (constant from the source). -/
def widevineModularUATGetLicenseURL : String :=
  "https://license.uat.widevine.com/cenc/getlicense/"

/-- Widevine Modular UAT content-key endpoint (constant from the source). -/
def widevineModularUATGetKeyURL : String :=
  "https://license.uat.widevine.com/cenc/getcontentkey/"

/-- Widevine Modular staging license endpoint (constant from the source). -/
def widevineModularStagingGetLicenseURL : String :=
  "https://license.staging.widevine.com/cenc/getlicense/"

/-- Widevine Modular staging content-key endpoint (constant from the
source). -/
def widevineModularStagingGetKeyURL : String :=
  "https://license.staging.widevine.com/cenc/getcontentkey/"

/-- Widevine Modular production license endpoint (constant from the
source). -/
def widevineModularProductionGetLicenseURL : String :=
  "https://license.widevine.com/cenc/getlicense/"

/-- Widevine Modular production content-key endpoint (constant from the
source). -/
def widevineModularProductionGetKeyURL : String :=
  "https://license.widevine.com/cenc/getcontentkey/"

/-- Mirrors `getCloudLicenseServiceURL`: the purpose (lower-cased) selects
the path, the provider selects UAT versus production, and the literal
`widevine_test` is appended as the final path segment on every branch. -/
def getCloudLicenseServiceURL (provider purpose : String) : String :=
  if goToLower purpose = "key" then
    if provider = "widevine_test" then widevineModularUATGetKeyURL ++ "widevine_test"
    else widevineModularProductionGetKeyURL ++ "widevine_test"
  else if goToLower purpose = "license" then
    if provider = "widevine_test" then widevineModularUATGetLicenseURL ++ "widevine_test"
    else widevineModularProductionGetLicenseURL ++ "widevine_test"
  else ""

/-- Whether a JSON value is the empty array (used to distinguish `null`
from `[]` in serialized policies). -/
def jsonIsEmptyArr : Json → Bool
  | .arr [] => true
  | _ => false

/-- The MD5 digest always has sixteen bytes. -/
theorem md5_length_sixteen (bs : GoBytes) : (md5 bs).length = 16 := by
  simp [md5, le32Bytes]

/-- Interleaving a separator into a one-element list is the identity. -/
theorem intercalate_single (sep s : String) : String.intercalate sep [s] = s := by
  simp [String.intercalate, String.intercalate.go]

/-- Key-governance capability used by the concrete witnesses: a fixed
16-byte content key (shaped like the test fixtures' `FakeKeyGoverner`). -/
def witnessGoverner : KeyGoverner where
  GenerateContentKeyID := md5
  GenerateContentKey := fun _ => [1, 2, 3, 4, 5, 6, 7, 8, 9, 10, 11, 12, 13, 14, 15, 16]
  GenerateContentIV := fun _ => []
  GenerateContentKeySpec := fun _ _ => none

/-- Concrete proxy with a valid 16-byte key and 16-byte IV. -/
def proxyW : Proxy where
  PartnerRootKey := List.replicate 16 7
  PartnerRootIV := List.replicate 16 9
  Provider := "widevine_test"
  ContentKeyGenerator := witnessGoverner

/-- A proxy agreeing with `proxyW` on key and IV but differing in the
provider and the key-governance capability. -/
def proxyOther : Proxy where
  PartnerRootKey := List.replicate 16 7
  PartnerRootIV := List.replicate 16 9
  Provider := "someone_else"
  ContentKeyGenerator :=
    { GenerateContentKeyID := fun _ => [], GenerateContentKey := fun _ => [9],
      GenerateContentIV := fun _ => [], GenerateContentKeySpec := fun _ _ => none }

/-- A proxy whose partner root key has five bytes, a length AES rejects. -/
def proxyShortKey : Proxy where
  PartnerRootKey := [1, 2, 3, 4, 5]
  PartnerRootIV := List.replicate 16 9
  Provider := "widevine_test"
  ContentKeyGenerator := witnessGoverner

/-- The content-key policy of the repository's own test. -/
def policyW : Policy where
  ContentID := "testing"
  Tracks := ["SD", "HD", "AUDIO"]
  DRMTypes := ["WIDEVINE"]
  Policy := "default"

/-- C9: the signer is deterministic and a function of the configured key,
the configured IV and the payload alone: any two proxies agreeing on the
partner root key and IV produce byte-identical signatures for the same
payload, whatever their other configuration. -/
theorem C9_signature_deterministic (wp1 wp2 : Proxy) (payload : GoBytes)
    (hkey : wp1.PartnerRootKey = wp2.PartnerRootKey)
    (hiv : wp1.PartnerRootIV = wp2.PartnerRootIV) :
    generateSignature wp1 payload = generateSignature wp2 payload := by
  simp [generateSignature, hkey, hiv]

/-- Witness for C9: two concrete proxies sharing key and IV but differing
in provider and key-governance capability sign the same payload
identically. -/
theorem C9_witness :
    proxyW.PartnerRootKey = proxyOther.PartnerRootKey ∧
    proxyW.PartnerRootIV = proxyOther.PartnerRootIV ∧
    generateSignature proxyW [1, 2, 3] = generateSignature proxyOther [1, 2, 3] :=
  ⟨rfl, rfl, C9_signature_deterministic proxyW proxyOther [1, 2, 3] rfl rfl⟩

/-- C6: in the endpoint resolver, for each purpose (license or key) the
provider identifier `widevine_test` resolves to the UAT host URL and every
other provider identifier resolves to the production host URL; no
(provider, purpose) input resolves to the configured staging host URLs. -/
theorem C6_resolver_env_selection :
    (∀ provider : String, getCloudLicenseServiceURL provider "license" =
      if provider = "widevine_test" then widevineModularUATGetLicenseURL ++ "widevine_test"
      else widevineModularProductionGetLicenseURL ++ "widevine_test") ∧
    (∀ provider : String, getCloudLicenseServiceURL provider "key" =
      if provider = "widevine_test" then widevineModularUATGetKeyURL ++ "widevine_test"
      else widevineModularProductionGetKeyURL ++ "widevine_test") ∧
    (∀ provider purpose : String,
      (strHasPrefix widevineModularStagingGetLicenseURL
          (getCloudLicenseServiceURL provider purpose) ||
        strHasPrefix widevineModularStagingGetKeyURL
          (getCloudLicenseServiceURL provider purpose)) = false) := by
  refine ⟨fun provider => ?_, fun provider => ?_, fun provider purpose => ?_⟩
  · by_cases h : provider = "widevine_test" <;>
      simp only [getCloudLicenseServiceURL, h, if_true, if_false, if_pos, if_neg,
        not_false_iff] <;> rfl
  · by_cases h : provider = "widevine_test" <;>
      simp only [getCloudLicenseServiceURL, h, if_true, if_false, if_pos, if_neg,
        not_false_iff] <;> rfl
  · unfold getCloudLicenseServiceURL
    by_cases hk : goToLower purpose = "key"
    · simp only [hk, if_true]
      by_cases h : provider = "widevine_test" <;> simp only [h, if_true, if_false] <;> rfl
    · simp only [hk, if_false]
      by_cases hl : goToLower purpose = "license"
      · simp only [hl, if_true]
        by_cases h : provider = "widevine_test" <;> simp only [h, if_true, if_false] <;> rfl
      · simp only [hl, if_false]
        rfl

/-- C7: for every provider identifier, the URL resolved for the key purpose
has `widevine_test` as its final path segment, for the designated test
provider and for any other provider alike. -/
theorem C7_key_url_final_segment (provider : String) :
    (splitSlash (getCloudLicenseServiceURL provider "key")).getLast? =
      some "widevine_test" := by
  by_cases h : provider = "widevine_test" <;>
    simp only [getCloudLicenseServiceURL, h, if_true, if_false] <;> rfl

/-- C3: the claim says a signer `CryptoError` raised while building the
content-key envelope propagates to the caller of `GetContentKey`.  The code
does not do this: `buildCKMessage` swallows the signer error by returning
`nil`, `json.Marshal(nil)` succeeds with the body `null`, and
`GetContentKey` proceeds to POST that degenerate body.  This theorem
evaluates the code at the failing input (a five-byte partner root key, which
the cipher initialization rejects): the signer fails, the envelope builder
returns no envelope and no error, and the request-building phase still
produces the POST body `null` instead of failing. -/
theorem C3_crypto_error_swallowed :
    generateSignature proxyShortKey
        (strBytes (marshalStringMap (setPolicy proxyShortKey "testing" policyW))) =
      .error (CryptoError.invalidKeySize 5) ∧
    buildCKMessage proxyShortKey (setPolicy proxyShortKey "testing" policyW) = none ∧
    GetContentKeyRequestBody proxyShortKey "testing" policyW = "null" :=
  ⟨rfl, rfl, rfl⟩

/-- Counterexample to C4: for an empty `Tracks` list the `tracks` field of
the policy object built by `setPolicy` is present but its value is JSON
`null` (the Go code leaves the `[]interface{}` slice nil, and a nil slice
serializes as `null`), not an empty array: the serialized inner message for
a concrete empty-tracks policy reads `"tracks":null`. -/
theorem C4_counterexample :
    jsonField "tracks"
        (setPolicy proxyW "cid" ⟨"cid", [], ["WIDEVINE"], "default"⟩) = some Json.null ∧
    jsonIsEmptyArr Json.null = false ∧
    marshalStringMap
        (setPolicy proxyW "cid" ⟨"cid", [], ["WIDEVINE"], "default"⟩) =
      "\x7b\"content_id\":\"Y2lk\",\"drm_types\":[\"WIDEVINE\"],\"policy\":\"default\",\"tracks\":null\x7d" :=
  ⟨rfl, rfl, rfl⟩

/-- C4 as amended: an empty `Tracks` list yields a `tracks` field that is
present with value JSON `null` (not an empty array and not an omitted
field), while a non-empty `Tracks` list yields an ordered list of
`(type, trackLabel)` objects preserving the input order with duplicates
allowed. -/
theorem C4_amended_tracks_field :
    (∀ (wp : Proxy) (contentID cid2 pol : String) (drm : List String),
      jsonField "tracks" (setPolicy wp contentID ⟨cid2, [], drm, pol⟩) =
        some Json.null) ∧
    (∀ (wp : Proxy) (contentID cid2 pol : String) (drm : List String)
        (t : String) (ts : List String),
      jsonField "tracks" (setPolicy wp contentID ⟨cid2, t :: ts, drm, pol⟩) =
        some (Json.arr ((t :: ts).map fun track => Json.obj [("type", Json.str track)]))) :=
  ⟨fun _ _ _ _ _ => rfl, fun _ _ _ _ _ _ _ => rfl⟩

/-- C5: the inner license message has the caller-supplied challenge as
payload, base64 of the content id as `content_id`, the configured provider,
the fixed marker `SD_UHD1` as allowed track types, and a one-element
content-key-spec list whose key is base64 of the key derived by the key
governance capability and whose key id is base64 of the 16-byte MD5 digest
of that derived key. -/
theorem C5_license_inner_message_fields (wp : Proxy) (contentID body : String) :
    (licenseInnerMessage wp contentID body).Payload = body ∧
    (licenseInnerMessage wp contentID body).ContentID =
      base64Encode (strBytes contentID) ∧
    (licenseInnerMessage wp contentID body).Provider = wp.Provider ∧
    (licenseInnerMessage wp contentID body).AllowedTrackTypes = "SD_UHD1" ∧
    (licenseInnerMessage wp contentID body).ContentKeySpecs =
      [ContentKeySpec.mk
        (base64Encode (md5 (wp.ContentKeyGenerator.GenerateContentKey (strBytes contentID))))
        (base64Encode (wp.ContentKeyGenerator.GenerateContentKey (strBytes contentID)))
        "" ""] ∧
    (md5 (wp.ContentKeyGenerator.GenerateContentKey (strBytes contentID))).length = 16 :=
  ⟨rfl, rfl, rfl, rfl, rfl,
    md5_length_sixteen (wp.ContentKeyGenerator.GenerateContentKey (strBytes contentID))⟩

/-- C8: whenever the content-key transport body is valid JSON that decodes
into the string map but carries no `response` binding, `GetContentKey`
fails with the distinct empty-response error, not with the generic
transport JSON-decode error. -/
theorem C8_missing_response_field (body : String) (j : Json) (rest : List Char)
    (m : List (String × String))
    (hparse : jsonDecodeValue body = some (j, rest))
    (hmap : decodeStringMap j = some m)
    (hlook : lookupLast "response" m = none) :
    GetContentKeyDecode body = .error CKError.emptyResponse ∧
    (CKError.emptyResponse == CKError.transportJson) = false := by
  constructor
  · simp only [GetContentKeyDecode, hparse, hmap, hlook]
  · rfl

/-- Witness for C8: the concrete valid-JSON body with a `status` field but
no `response` field produces the empty-response error. -/
theorem C8_witness :
    GetContentKeyDecode "\x7b\"status\":\"OK\"\x7d" = .error CKError.emptyResponse ∧
    (CKError.emptyResponse == CKError.transportJson) = false :=
  C8_missing_response_field "\x7b\"status\":\"OK\"\x7d"
    (Json.obj [("status", Json.str "OK")]) [] [("status", "OK")] rfl rfl rfl

/-- Counterexample to C2: the claim says a failure of the base64 decode of
the `response` field is surfaced as an inner-decode error; in the code the
base64 error is discarded and the partially decoded bytes are fed to the
inner JSON decode, which can succeed.  On the concrete body whose
`response` value `e30=AAAA` is corrupt base64 (trailing garbage after
padding), Go's decoder returns the partial bytes of an empty JSON object
together with the error, and `GetContentKey` returns a decoded zero
response with no error at all. -/
theorem C2_counterexample :
    (base64DecodeGo "e30=AAAA").2 = false ∧
    GetContentKeyDecode "\x7b\"response\":\"e30=AAAA\"\x7d" =
      .ok (ContentKeyResponse.mk "" [] [] false) :=
  ⟨rfl, rfl⟩

/-- C2 as amended: the reply decoding is two-stage and the transport-JSON,
missing-field and inner-JSON failures are pairwise distinct outcomes (shown
on three concrete bodies, one per stage); a base64 failure of the
`response` field, however, is not a distinguishable outcome: its error is
discarded, the partial bytes flow into the inner JSON decode, and only a
failure of that decode is reported (as the inner-decode error). -/
theorem C2_amended_stage_errors :
    GetContentKeyDecode "notjson" = .error CKError.transportJson ∧
    GetContentKeyDecode "\x7b\"ok\":\"yes\"\x7d" = .error CKError.emptyResponse ∧
    GetContentKeyDecode "\x7b\"response\":\"bm9wZQ==\"\x7d" = .error CKError.innerJson ∧
    (CKError.transportJson == CKError.emptyResponse) = false ∧
    (CKError.transportJson == CKError.innerJson) = false ∧
    (CKError.emptyResponse == CKError.innerJson) = false ∧
    (base64DecodeGo "bm9wZQ==AA").2 = false ∧
    GetContentKeyDecode "\x7b\"response\":\"bm9wZQ==AA\"\x7d" =
      .error CKError.innerJson :=
  ⟨rfl, rfl, rfl, rfl, rfl, rfl, rfl, rfl⟩
/-- C10: the single content-key spec of every license envelope serializes
all four fields: only `key` and `key_id` are populated, and the `iv` and
`track_type` fields appear in the inner-message JSON as empty strings,
never omitted. -/
theorem C10_spec_serializes_all_fields (wp : Proxy) (contentID body : String) :
    (licenseInnerMessage wp contentID body).ContentKeySpecs.map ContentKeySpec.IV = [""] ∧
    (licenseInnerMessage wp contentID body).ContentKeySpecs.map ContentKeySpec.TrackType = [""] ∧
    ∃ a b : String, marshalLicenseMessage (licenseInnerMessage wp contentID body) =
      a ++ ",\"iv\":\"\",\"track_type\":\"\"" ++ b := by
  refine ⟨rfl, rfl, ?_⟩
  refine ⟨String.mk [lbrace] ++ "\"payload\":" ++ jsonQuote body ++
      ",\"content_id\":" ++ jsonQuote (base64Encode (strBytes contentID)) ++
      ",\"provider\":" ++ jsonQuote wp.Provider ++
      ",\"allowed_track_types\":" ++ jsonQuote "SD_UHD1" ++
      ",\"content_key_specs\":[" ++ String.mk [lbrace] ++
      "\"key_id\":" ++ jsonQuote (base64Encode (md5 (wp.ContentKeyGenerator.GenerateContentKey (strBytes contentID)))) ++
      ",\"key\":" ++ jsonQuote (base64Encode (wp.ContentKeyGenerator.GenerateContentKey (strBytes contentID))),
    String.mk [rbrace] ++ "]" ++ String.mk [rbrace], ?_⟩
  have hmid : (",\"iv\":\"\",\"track_type\":\"\"" : String) =
      ",\"iv\":" ++ jsonQuote "" ++ ",\"track_type\":" ++ jsonQuote "" := rfl
  rw [hmid]
  simp only [marshalLicenseMessage, marshalContentKeySpec, licenseInnerMessage,
    intercalate_single, List.map_cons, List.map_nil, String.append_assoc]

/-- C1: for both envelope builders, the signature field is computed over
exactly the JSON byte sequence of the inner message before base64 encoding,
and the request field is the base64 encoding of that same byte sequence;
the signature input is the pre-base64 serialization, never the base64
text. -/
theorem C1_signature_over_exact_json_bytes :
    (∀ (wp : Proxy) (contentID body : String) (env : PostBody),
      buildLicenseMessage wp contentID body = .ok env →
        env.request = base64Encode
          (strBytes (marshalLicenseMessage (licenseInnerMessage wp contentID body))) ∧
        generateSignature wp
          (strBytes (marshalLicenseMessage (licenseInnerMessage wp contentID body))) =
          .ok env.signature) ∧
    (∀ (wp : Proxy) (policy : List (String × Json)) (env : PostBody),
      buildCKMessage wp policy = some env →
        env.request = base64Encode (strBytes (marshalStringMap policy)) ∧
        generateSignature wp (strBytes (marshalStringMap policy)) = .ok env.signature) := by
  constructor
  · intro wp contentID body env h
    simp only [buildLicenseMessage] at h
    split at h
    · exact Except.noConfusion h
    · rename_i sign heq
      cases h
      exact ⟨rfl, heq⟩
  · intro wp policy env h
    simp only [buildCKMessage] at h
    split at h
    · exact Option.noConfusion h
    · rename_i sign heq
      cases h
      exact ⟨rfl, heq⟩

/-- The concrete license envelope `proxyW` builds for content id `a` and
challenge `ch` (named so the witness can discharge the success hypothesis
of the C1 theorem by evaluation). -/
def licenseEnvW : PostBody :=
  match buildLicenseMessage proxyW "a" "ch" with
  | .ok env => env
  | .error _ => ⟨"", [], ""⟩

/-- The concrete content-key envelope `proxyW` builds for the repository
test's policy. -/
def ckEnvW : PostBody :=
  match buildCKMessage proxyW (setPolicy proxyW "testing" policyW) with
  | some env => env
  | none => ⟨"", [], ""⟩

/-- Witness for C1: both halves applied at concrete inputs, with the
success hypotheses discharged by evaluation. -/
theorem C1_witness :
    (buildLicenseMessage proxyW "a" "ch" = .ok licenseEnvW ∧
      licenseEnvW.request = base64Encode
        (strBytes (marshalLicenseMessage (licenseInnerMessage proxyW "a" "ch"))) ∧
      generateSignature proxyW
        (strBytes (marshalLicenseMessage (licenseInnerMessage proxyW "a" "ch"))) =
        .ok licenseEnvW.signature) ∧
    (buildCKMessage proxyW (setPolicy proxyW "testing" policyW) = some ckEnvW ∧
      ckEnvW.request = base64Encode
        (strBytes (marshalStringMap (setPolicy proxyW "testing" policyW))) ∧
      generateSignature proxyW
        (strBytes (marshalStringMap (setPolicy proxyW "testing" policyW))) =
        .ok ckEnvW.signature) :=
  ⟨⟨rfl, C1_signature_over_exact_json_bytes.1 proxyW "a" "ch" licenseEnvW rfl⟩,
    ⟨rfl, C1_signature_over_exact_json_bytes.2 proxyW
      (setPolicy proxyW "testing" policyW) ckEnvW rfl⟩⟩
